import Mathlib

/-!
Shallow embedding of `safety_score.py` (plexy1/recentscores).

Python floats are modelled exactly: factor inputs, caps and exponents are
rationals (`ℚ`); the PCF / score computations, which use real exponentiation
(`**`), live in `ℝ` with `Real.rpow`.  A Python function that can raise
`ValueError` (the spec's `ValidationError`) is modelled as returning `Option`,
with `none` for the raised exception.
-/

namespace SafetyScore

/-- `BASE_PCF = 0.57198191` -/
def BASE_PCF : ℝ := 0.57198191

/-- `BASE_SAFETY_SCORE_INTERCEPT = 122.15240383` -/
def BASE_SAFETY_SCORE_INTERCEPT : ℝ := 122.15240383

/-- `BASE_SAFETY_SCORE_SLOPE = -38.72920381` -/
def BASE_SAFETY_SCORE_SLOPE : ℝ := -38.72920381

/-- `LEGACY_INTERCEPT = 123.50230309` -/
def LEGACY_INTERCEPT : ℝ := 123.50230309

/-- `LEGACY_UNSAFE_FOLLOWING = 21.8` (a percentage) -/
def LEGACY_UNSAFE_FOLLOWING : ℚ := 21.8

/-- The keys of the `CAPS` / `MULTIPLIERS` dictionaries. -/
inductive FactorKey
  | hard_braking
  | aggressive_turning
  | unsafe_following
  | excessive_speeding
  | late_night_driving
  | unbuckled_driving
  | forced_autopilot_disengagement
deriving DecidableEq, Repr

open FactorKey

/-- The `CAPS` dictionary.  The source dictionary has entries for the six
percentage factors only; `forced_autopilot_disengagement` is never looked up
in `CAPS` (the value `0` here is an arbitrary total-function filler). -/
def CAPS : FactorKey → ℚ
  | hard_braking => 5.2
  | aggressive_turning => 13.2
  | unsafe_following => 63.2
  | excessive_speeding => 10.0
  | late_night_driving => 14.2
  | unbuckled_driving => 31.7
  | forced_autopilot_disengagement => 0

/-- The `MULTIPLIERS` dictionary (all seven keys are present in the source). -/
def MULTIPLIERS : FactorKey → ℝ
  | hard_braking => 1.23599110
  | aggressive_turning => 1.01219290
  | unsafe_following => 1.00271921
  | forced_autopilot_disengagement => 1.32343362
  | late_night_driving => 1.03231810
  | excessive_speeding => 1.02439511
  | unbuckled_driving => 1.01151237

/-- `FACTOR_ORDER`: fixed presentation order of `(key, label)` pairs. -/
def FACTOR_ORDER : List (FactorKey × String) :=
  [(hard_braking, "Hard Braking"),
   (aggressive_turning, "Aggressive Turning"),
   (unsafe_following, "Unsafe Following"),
   (excessive_speeding, "Excessive Speeding"),
   (late_night_driving, "Late-Night Driving"),
   (unbuckled_driving, "Unbuckled Driving"),
   (forced_autopilot_disengagement, "Forced ADAS Disengagement")]

/-- `_normalize_percentage(value, cap)`: raises (`none`) on a negative value,
otherwise clamps to the cap. -/
def normalize_percentage (value : ℚ) (cap : ℚ) : Option ℚ :=
  if value < 0 then none else some (min value cap)

/-- The `SafetyFactors` dataclass (fields in source order). -/
structure SafetyFactors where
  hard_braking : ℚ
  aggressive_turning : ℚ
  unsafe_following : ℚ
  excessive_speeding : ℚ
  late_night_driving : ℚ
  forced_autopilot_disengagement : ℤ
  unbuckled_driving : ℚ
  autopilot_hw_two_or_newer : Bool := true
deriving DecidableEq, Repr

/-- `SafetyFactors.normalize`: clamp every percentage field (raising on a
negative one), coerce the disengagement flag to `0`/`1` by truthiness. -/
def SafetyFactors.normalize (f : SafetyFactors) : Option SafetyFactors := do
  let hb ← normalize_percentage f.hard_braking (CAPS .hard_braking)
  let at_ ← normalize_percentage f.aggressive_turning (CAPS .aggressive_turning)
  let uf ← normalize_percentage f.unsafe_following (CAPS .unsafe_following)
  let es ← normalize_percentage f.excessive_speeding (CAPS .excessive_speeding)
  let ln_ ← normalize_percentage f.late_night_driving (CAPS .late_night_driving)
  let ub ← normalize_percentage f.unbuckled_driving (CAPS .unbuckled_driving)
  some { hard_braking := hb
         aggressive_turning := at_
         unsafe_following := uf
         excessive_speeding := es
         late_night_driving := ln_
         forced_autopilot_disengagement :=
           if f.forced_autopilot_disengagement ≠ 0 then 1 else 0
         unbuckled_driving := ub
         autopilot_hw_two_or_newer := f.autopilot_hw_two_or_newer }

/-- Predicate: some raw percentage field is negative (the exact condition
under which `normalize` raises). -/
def SafetyFactors.hasNegativeField (f : SafetyFactors) : Prop :=
  f.hard_braking < 0 ∨ f.aggressive_turning < 0 ∨ f.unsafe_following < 0 ∨
    f.excessive_speeding < 0 ∨ f.late_night_driving < 0 ∨ f.unbuckled_driving < 0

instance (f : SafetyFactors) : Decidable f.hasNegativeField := by
  unfold SafetyFactors.hasNegativeField; infer_instance

/-- `compute_pcf(factors)`: Predicted Collision Frequency for one period.
Multiplication order matches the source line for line; the unsafe-following
exponent is the legacy constant (re-clamped via `_normalize_percentage`)
when the hardware flag is off. -/
noncomputable def compute_pcf (factors : SafetyFactors) : Option ℝ := do
  let normalized ← factors.normalize
  let unsafe_following ←
    if normalized.autopilot_hw_two_or_newer then
      pure normalized.unsafe_following
    else
      normalize_percentage LEGACY_UNSAFE_FOLLOWING (CAPS .unsafe_following)
  pure (BASE_PCF
    * MULTIPLIERS .hard_braking ^ (normalized.hard_braking : ℝ)
    * MULTIPLIERS .aggressive_turning ^ (normalized.aggressive_turning : ℝ)
    * MULTIPLIERS .unsafe_following ^ (unsafe_following : ℝ)
    * MULTIPLIERS .forced_autopilot_disengagement ^
        (normalized.forced_autopilot_disengagement : ℝ)
    * MULTIPLIERS .late_night_driving ^ (normalized.late_night_driving : ℝ)
    * MULTIPLIERS .excessive_speeding ^ (normalized.excessive_speeding : ℝ)
    * MULTIPLIERS .unbuckled_driving ^ (normalized.unbuckled_driving : ℝ))

/-- `compute_safety_score(factors)`: intercept (selected by the hardware
flag) plus slope times PCF, clamped to `[0, 100]`. -/
noncomputable def compute_safety_score (factors : SafetyFactors) : Option ℝ := do
  let normalized ← factors.normalize
  let pcf ← compute_pcf factors
  let intercept :=
    if normalized.autopilot_hw_two_or_newer then BASE_SAFETY_SCORE_INTERCEPT
    else LEGACY_INTERCEPT
  pure (max 0 (min 100 (intercept + BASE_SAFETY_SCORE_SLOPE * pcf)))

/-- `weighted_average(scores, weights)`: raises (`none`) on a length mismatch
or a zero weight sum, otherwise the weight-normalized average. -/
noncomputable def weighted_average (scores : List ℝ) (weights : List ℝ) :
    Option ℝ :=
  if scores.length ≠ weights.length then none
  else if weights.sum = 0 then none
  else some (((scores.zip weights).map fun p => p.1 * p.2).sum / weights.sum)

/-- `_score_from_pcf(pcf, autopilot_hw_two_or_newer)`. -/
noncomputable def score_from_pcf (pcf : ℝ) (autopilot_hw_two_or_newer : Bool) : ℝ :=
  let intercept :=
    if autopilot_hw_two_or_newer then BASE_SAFETY_SCORE_INTERCEPT
    else LEGACY_INTERCEPT
  max 0 (min 100 (intercept + BASE_SAFETY_SCORE_SLOPE * pcf))

/-- `_baseline_factors(autopilot_hw_two_or_newer)`: the all-zero factor set. -/
def baseline_factors (autopilot_hw_two_or_newer : Bool) : SafetyFactors :=
  { hard_braking := 0
    aggressive_turning := 0
    unsafe_following := 0
    excessive_speeding := 0
    late_night_driving := 0
    forced_autopilot_disengagement := 0
    unbuckled_driving := 0
    autopilot_hw_two_or_newer := autopilot_hw_two_or_newer }

/-- `getattr(factors, key)` for the factor fields, as a rational. -/
def getattr_q (factors : SafetyFactors) : FactorKey → ℚ
  | .hard_braking => factors.hard_braking
  | .aggressive_turning => factors.aggressive_turning
  | .unsafe_following => factors.unsafe_following
  | .excessive_speeding => factors.excessive_speeding
  | .late_night_driving => factors.late_night_driving
  | .unbuckled_driving => factors.unbuckled_driving
  | .forced_autopilot_disengagement => (factors.forced_autopilot_disengagement : ℚ)

/-- `_get_factor_exponent(factors, key)`. -/
def get_factor_exponent (factors : SafetyFactors) (key : FactorKey) : ℚ :=
  if key = .forced_autopilot_disengagement then
    (factors.forced_autopilot_disengagement : ℚ)
  else if key = .unsafe_following ∧ factors.autopilot_hw_two_or_newer = false then 0
  else getattr_q factors key

/-- One emitted breakdown segment (the dictionary
`{key, label, penalty, value}` of the source). -/
structure Segment where
  key : FactorKey
  label : String
  penalty : ℝ
  value : ℝ

/-- The dictionary returned by `score_breakdown`. -/
structure BreakdownResult where
  base_score : ℝ
  current_score : ℝ
  total_penalty : ℝ
  segments : List Segment

/-- The `for key, label in FACTOR_ORDER` loop of `score_breakdown`, as a
recursion over the remaining `(key, label)` pairs; the state is
`(pcf_running, score_running, segments)`. -/
noncomputable def breakdown_loop (normalized : SafetyFactors) :
    List (FactorKey × String) → ℝ → ℝ → List Segment → ℝ × ℝ × List Segment
  | [], pcf_running, score_running, segments =>
      (pcf_running, score_running, segments)
  | (key, label) :: rest, pcf_running, score_running, segments =>
      let exponent := get_factor_exponent normalized key
      if exponent ≤ 0 then
        breakdown_loop normalized rest pcf_running score_running segments
      else
        let previous_score := score_running
        let pcf_running' := pcf_running * MULTIPLIERS key ^ (exponent : ℝ)
        let score_running' :=
          score_from_pcf pcf_running' normalized.autopilot_hw_two_or_newer
        let penalty := max 0 (previous_score - score_running')
        if penalty ≤ 0 then
          breakdown_loop normalized rest pcf_running' score_running' segments
        else
          breakdown_loop normalized rest pcf_running' score_running'
            (segments ++ [⟨key, label, penalty, (exponent : ℝ)⟩])

/-- `segments[-1]["penalty"] += residual` of the source: add the residual to
the last segment's penalty. -/
noncomputable def add_to_last_penalty : List Segment → ℝ → List Segment
  | [], _ => []
  | [s], residual => [{ s with penalty := s.penalty + residual }]
  | s :: s' :: rest, residual => s :: add_to_last_penalty (s' :: rest) residual

/-- `score_breakdown(factors)`: per-factor penalty attribution with the
final residual-patching step. -/
noncomputable def score_breakdown (factors : SafetyFactors) :
    Option BreakdownResult := do
  let normalized ← factors.normalize
  let base_factors := baseline_factors normalized.autopilot_hw_two_or_newer
  let base_pcf ← compute_pcf base_factors
  let current_pcf ← compute_pcf normalized
  let base_score := score_from_pcf base_pcf normalized.autopilot_hw_two_or_newer
  let current_score :=
    score_from_pcf current_pcf normalized.autopilot_hw_two_or_newer
  let loop_result := breakdown_loop normalized FACTOR_ORDER base_pcf base_score []
  let segments := loop_result.2.2
  let total_penalty := max 0 (base_score - current_score)
  let segments :=
    if segments.isEmpty then segments
    else
      let residual := total_penalty - (segments.map Segment.penalty).sum
      if 1e-6 < |residual| then add_to_last_penalty segments residual
      else segments
  pure { base_score := base_score
         current_score := current_score
         total_penalty := total_penalty
         segments := segments }

/-! ### Verification-side definitions -/

/-- The real number carried by `compute_pcf` once normalization succeeded. -/
noncomputable def pcf_value (n : SafetyFactors) : ℝ :=
  BASE_PCF
  * MULTIPLIERS .hard_braking ^ (n.hard_braking : ℝ)
  * MULTIPLIERS .aggressive_turning ^ (n.aggressive_turning : ℝ)
  * MULTIPLIERS .unsafe_following ^
      (((if n.autopilot_hw_two_or_newer then n.unsafe_following
         else min LEGACY_UNSAFE_FOLLOWING (CAPS .unsafe_following)) : ℚ) : ℝ)
  * MULTIPLIERS .forced_autopilot_disengagement ^
      (n.forced_autopilot_disengagement : ℝ)
  * MULTIPLIERS .late_night_driving ^ (n.late_night_driving : ℝ)
  * MULTIPLIERS .excessive_speeding ^ (n.excessive_speeding : ℝ)
  * MULTIPLIERS .unbuckled_driving ^ (n.unbuckled_driving : ℝ)

/-- Field bounds that hold for every output of a successful `normalize`. -/
def IsNormalized (n : SafetyFactors) : Prop :=
  0 ≤ n.hard_braking ∧ 0 ≤ n.aggressive_turning ∧ 0 ≤ n.unsafe_following ∧
    0 ≤ n.excessive_speeding ∧ 0 ≤ n.late_night_driving ∧
    0 ≤ n.unbuckled_driving ∧
    (n.forced_autopilot_disengagement = 0 ∨ n.forced_autopilot_disengagement = 1)

/-- The spec's reference PCF formula, written from the spec's words (§4.2):
the base constant, times each percentage factor's multiplier raised to the
clamped percentage, with the unsafe-following value replaced by the capped
legacy constant on legacy hardware, times the forced-disengagement
multiplier raised to the 0-or-1 flag. -/
noncomputable def pcf_spec_formula (f : SafetyFactors) : ℝ :=
  BASE_PCF
  * MULTIPLIERS .hard_braking ^
      ((min f.hard_braking (CAPS .hard_braking) : ℚ) : ℝ)
  * MULTIPLIERS .aggressive_turning ^
      ((min f.aggressive_turning (CAPS .aggressive_turning) : ℚ) : ℝ)
  * MULTIPLIERS .unsafe_following ^
      (((if f.autopilot_hw_two_or_newer then
           min f.unsafe_following (CAPS .unsafe_following)
         else min LEGACY_UNSAFE_FOLLOWING (CAPS .unsafe_following)) : ℚ) : ℝ)
  * MULTIPLIERS .excessive_speeding ^
      ((min f.excessive_speeding (CAPS .excessive_speeding) : ℚ) : ℝ)
  * MULTIPLIERS .late_night_driving ^
      ((min f.late_night_driving (CAPS .late_night_driving) : ℚ) : ℝ)
  * MULTIPLIERS .unbuckled_driving ^
      ((min f.unbuckled_driving (CAPS .unbuckled_driving) : ℚ) : ℝ)
  * MULTIPLIERS .forced_autopilot_disengagement ^
      (((if f.forced_autopilot_disengagement ≠ 0 then 1 else 0 : ℤ)) : ℝ)

/-- The six percentage factors (the fields a caller can dial up or down). -/
inductive PercentFactor
  | hard_braking
  | aggressive_turning
  | unsafe_following
  | excessive_speeding
  | late_night_driving
  | unbuckled_driving
deriving DecidableEq, Repr

/-- Read one percentage field. -/
def get_percent (f : SafetyFactors) : PercentFactor → ℚ
  | .hard_braking => f.hard_braking
  | .aggressive_turning => f.aggressive_turning
  | .unsafe_following => f.unsafe_following
  | .excessive_speeding => f.excessive_speeding
  | .late_night_driving => f.late_night_driving
  | .unbuckled_driving => f.unbuckled_driving

/-- Replace one percentage field, leaving every other field unchanged. -/
def set_percent (f : SafetyFactors) : PercentFactor → ℚ → SafetyFactors
  | .hard_braking, v => { f with hard_braking := v }
  | .aggressive_turning, v => { f with aggressive_turning := v }
  | .unsafe_following, v => { f with unsafe_following := v }
  | .excessive_speeding, v => { f with excessive_speeding := v }
  | .late_night_driving, v => { f with late_night_driving := v }
  | .unbuckled_driving, v => { f with unbuckled_driving := v }

/-- Product of the per-factor multipliers raised to the effective breakdown
exponents, over a list of `(key, label)` pairs. -/
noncomputable def exp_prod (n : SafetyFactors)
    (keys : List (FactorKey × String)) : ℝ :=
  (keys.map fun kl =>
    MULTIPLIERS kl.1 ^ ((get_factor_exponent n kl.1 : ℚ) : ℝ)).prod

/-- The spec's concrete scenario: hard braking at its cap, everything else
zero, current-generation hardware. -/
def scenario_hard_braking_cap : SafetyFactors :=
  { hard_braking := 5.2
    aggressive_turning := 0
    unsafe_following := 0
    excessive_speeding := 0
    late_night_driving := 0
    forced_autopilot_disengagement := 0
    unbuckled_driving := 0
    autopilot_hw_two_or_newer := true }

/-! ### Closed form of `normalize` -/

/-- Closed form of `normalize`: `none` exactly when a field is negative,
otherwise every percentage is clamped and the flag is coerced to `0`/`1`. -/
theorem normalize_characterization (f : SafetyFactors) :
    f.normalize =
      if f.hasNegativeField then none
      else some
        { hard_braking := min f.hard_braking (CAPS .hard_braking)
          aggressive_turning := min f.aggressive_turning (CAPS .aggressive_turning)
          unsafe_following := min f.unsafe_following (CAPS .unsafe_following)
          excessive_speeding := min f.excessive_speeding (CAPS .excessive_speeding)
          late_night_driving := min f.late_night_driving (CAPS .late_night_driving)
          forced_autopilot_disengagement :=
            if f.forced_autopilot_disengagement ≠ 0 then 1 else 0
          unbuckled_driving := min f.unbuckled_driving (CAPS .unbuckled_driving)
          autopilot_hw_two_or_newer := f.autopilot_hw_two_or_newer } := by
  by_cases h1 : f.hard_braking < 0 <;>
    by_cases h2 : f.aggressive_turning < 0 <;>
      by_cases h3 : f.unsafe_following < 0 <;>
        by_cases h4 : f.excessive_speeding < 0 <;>
          by_cases h5 : f.late_night_driving < 0 <;>
            by_cases h6 : f.unbuckled_driving < 0 <;>
  simp [SafetyFactors.normalize, normalize_percentage, SafetyFactors.hasNegativeField,
    h1, h2, h3, h4, h5, h6]

/-! ### Basic facts about the constant tables -/

lemma one_le_MULTIPLIERS (k : FactorKey) : 1 ≤ MULTIPLIERS k := by
  cases k <;> norm_num [MULTIPLIERS]

lemma MULTIPLIERS_pos (k : FactorKey) : (0 : ℝ) < MULTIPLIERS k :=
  lt_of_lt_of_le one_pos (one_le_MULTIPLIERS k)

lemma one_le_rpow_exp (k : FactorKey) {e : ℝ} (he : 0 ≤ e) :
    1 ≤ MULTIPLIERS k ^ e :=
  Real.one_le_rpow (one_le_MULTIPLIERS k) he

lemma rpow_exp_pos (k : FactorKey) (e : ℝ) : 0 < MULTIPLIERS k ^ e :=
  Real.rpow_pos_of_pos (MULTIPLIERS_pos k) e

lemma BASE_PCF_pos : (0 : ℝ) < BASE_PCF := by norm_num [BASE_PCF]

lemma SLOPE_nonpos : BASE_SAFETY_SCORE_SLOPE ≤ 0 := by
  norm_num [BASE_SAFETY_SCORE_SLOPE]

/-! ### The value computed by `compute_pcf` on normalized factors -/

lemma compute_pcf_eq {f n : SafetyFactors} (h : f.normalize = some n) :
    compute_pcf f = some (pcf_value n) := by
  cases hw : n.autopilot_hw_two_or_newer <;>
    simp [compute_pcf, h, hw, pcf_value, normalize_percentage,
      show ¬ LEGACY_UNSAFE_FOLLOWING < 0 by norm_num [LEGACY_UNSAFE_FOLLOWING]]

lemma isNormalized_of_normalize {f n : SafetyFactors} (h : f.normalize = some n) :
    IsNormalized n := by
  rw [normalize_characterization] at h
  by_cases hneg : f.hasNegativeField
  · rw [if_pos hneg] at h; cases h
  · rw [if_neg hneg] at h
    unfold SafetyFactors.hasNegativeField at hneg
    push_neg at hneg
    obtain ⟨g1, g2, g3, g4, g5, g6⟩ := hneg
    obtain rfl := Option.some.inj h
    refine ⟨le_min g1 (by norm_num [CAPS]), le_min g2 (by norm_num [CAPS]),
      le_min g3 (by norm_num [CAPS]), le_min g4 (by norm_num [CAPS]),
      le_min g5 (by norm_num [CAPS]), le_min g6 (by norm_num [CAPS]), ?_⟩
    by_cases hf : f.forced_autopilot_disengagement = 0 <;> simp [hf]

lemma normalize_of_isNormalized_self {f n : SafetyFactors}
    (h : f.normalize = some n) : n.normalize = some n := by
  rw [normalize_characterization] at h
  by_cases hneg : f.hasNegativeField
  · rw [if_pos hneg] at h; cases h
  · rw [if_neg hneg] at h
    unfold SafetyFactors.hasNegativeField at hneg
    push_neg at hneg
    obtain ⟨g1, g2, g3, g4, g5, g6⟩ := hneg
    obtain rfl := Option.some.inj h
    rw [normalize_characterization, if_neg]
    · have caps_idem : ∀ v c : ℚ, min (min v c) c = min v c := fun v c => by
        rw [min_assoc, min_self]
      by_cases hf : f.forced_autopilot_disengagement = 0 <;> simp [caps_idem, hf]
    · unfold SafetyFactors.hasNegativeField
      push_neg
      exact ⟨le_min g1 (by norm_num [CAPS]), le_min g2 (by norm_num [CAPS]),
        le_min g3 (by norm_num [CAPS]), le_min g4 (by norm_num [CAPS]),
        le_min g5 (by norm_num [CAPS]), le_min g6 (by norm_num [CAPS])⟩

/-! ### Score clamp facts -/

lemma score_from_pcf_nonneg (p : ℝ) (hw : Bool) : 0 ≤ score_from_pcf p hw :=
  le_max_left 0 _

lemma score_from_pcf_le_100 (p : ℝ) (hw : Bool) : score_from_pcf p hw ≤ 100 := by
  unfold score_from_pcf
  exact max_le (by norm_num) (min_le_left _ _)

lemma score_from_pcf_antitone {p q : ℝ} (hw : Bool) (h : p ≤ q) :
    score_from_pcf q hw ≤ score_from_pcf p hw := by
  have hs : BASE_SAFETY_SCORE_SLOPE * q ≤ BASE_SAFETY_SCORE_SLOPE * p :=
    mul_le_mul_of_nonpos_left h SLOPE_nonpos
  unfold score_from_pcf
  exact max_le_max le_rfl (min_le_min le_rfl (by linarith))

/-! ### PCF lower bound and monotonicity -/

lemma forced_cast_nonneg {n : SafetyFactors} (hn : IsNormalized n) :
    (0 : ℝ) ≤ (n.forced_autopilot_disengagement : ℝ) := by
  rcases hn.2.2.2.2.2.2 with h | h <;> rw [h] <;> norm_num

/-- Chain bound: a positive head times seven factors each at least one. -/
lemma le_mul_seven {a t1 t2 t3 t4 t5 t6 t7 : ℝ} (ha : 0 ≤ a)
    (h1 : 1 ≤ t1) (h2 : 1 ≤ t2) (h3 : 1 ≤ t3) (h4 : 1 ≤ t4)
    (h5 : 1 ≤ t5) (h6 : 1 ≤ t6) (h7 : 1 ≤ t7) :
    a ≤ a * t1 * t2 * t3 * t4 * t5 * t6 * t7 := by
  have n1 : 0 ≤ a * t1 := mul_nonneg ha (zero_le_one.trans h1)
  have n2 : 0 ≤ a * t1 * t2 := mul_nonneg n1 (zero_le_one.trans h2)
  have n3 : 0 ≤ a * t1 * t2 * t3 := mul_nonneg n2 (zero_le_one.trans h3)
  have n4 : 0 ≤ a * t1 * t2 * t3 * t4 := mul_nonneg n3 (zero_le_one.trans h4)
  have n5 : 0 ≤ a * t1 * t2 * t3 * t4 * t5 := mul_nonneg n4 (zero_le_one.trans h5)
  have n6 : 0 ≤ a * t1 * t2 * t3 * t4 * t5 * t6 :=
    mul_nonneg n5 (zero_le_one.trans h6)
  calc a ≤ a * t1 := le_mul_of_one_le_right ha h1
    _ ≤ a * t1 * t2 := le_mul_of_one_le_right n1 h2
    _ ≤ a * t1 * t2 * t3 := le_mul_of_one_le_right n2 h3
    _ ≤ a * t1 * t2 * t3 * t4 := le_mul_of_one_le_right n3 h4
    _ ≤ a * t1 * t2 * t3 * t4 * t5 := le_mul_of_one_le_right n4 h5
    _ ≤ a * t1 * t2 * t3 * t4 * t5 * t6 := le_mul_of_one_le_right n5 h6
    _ ≤ a * t1 * t2 * t3 * t4 * t5 * t6 * t7 := le_mul_of_one_le_right n6 h7

/-- The unsafe-following exponent used by `pcf_value` is non-negative. -/
lemma uf_exponent_nonneg {n : SafetyFactors} (h3 : 0 ≤ n.unsafe_following) :
    (0 : ℝ) ≤ ((if n.autopilot_hw_two_or_newer then n.unsafe_following
      else min LEGACY_UNSAFE_FOLLOWING (CAPS .unsafe_following) : ℚ) : ℝ) := by
  have : (0 : ℚ) ≤ (if n.autopilot_hw_two_or_newer then n.unsafe_following
      else min LEGACY_UNSAFE_FOLLOWING (CAPS .unsafe_following)) := by
    split_ifs
    · exact h3
    · norm_num [LEGACY_UNSAFE_FOLLOWING, CAPS]
  exact_mod_cast this

lemma BASE_PCF_le_pcf_value {n : SafetyFactors} (hn : IsNormalized n) :
    BASE_PCF ≤ pcf_value n := by
  obtain ⟨h1, h2, h3, h4, h5, h6, _⟩ := hn
  have c1 : (0 : ℝ) ≤ (n.hard_braking : ℝ) := by exact_mod_cast h1
  have c2 : (0 : ℝ) ≤ (n.aggressive_turning : ℝ) := by exact_mod_cast h2
  have c4 : (0 : ℝ) ≤ (n.excessive_speeding : ℝ) := by exact_mod_cast h4
  have c5 : (0 : ℝ) ≤ (n.late_night_driving : ℝ) := by exact_mod_cast h5
  have c6 : (0 : ℝ) ≤ (n.unbuckled_driving : ℝ) := by exact_mod_cast h6
  exact le_mul_seven BASE_PCF_pos.le
    (one_le_rpow_exp .hard_braking c1)
    (one_le_rpow_exp .aggressive_turning c2)
    (one_le_rpow_exp .unsafe_following (uf_exponent_nonneg h3))
    (one_le_rpow_exp .forced_autopilot_disengagement
      (forced_cast_nonneg ⟨h1, h2, h3, h4, h5, h6, by assumption⟩))
    (one_le_rpow_exp .late_night_driving c5)
    (one_le_rpow_exp .excessive_speeding c4)
    (one_le_rpow_exp .unbuckled_driving c6)

lemma pcf_value_pos {n : SafetyFactors} (hn : IsNormalized n) : 0 < pcf_value n :=
  lt_of_lt_of_le BASE_PCF_pos (BASE_PCF_le_pcf_value hn)

lemma compute_safety_score_eq {f n : SafetyFactors} (h : f.normalize = some n) :
    compute_safety_score f =
      some (score_from_pcf (pcf_value n) n.autopilot_hw_two_or_newer) := by
  simp [compute_safety_score, h, compute_pcf_eq h, score_from_pcf]

lemma compute_safety_score_some {f : SafetyFactors} {s : ℝ}
    (h : compute_safety_score f = some s) :
    ∃ n, f.normalize = some n ∧
      s = score_from_pcf (pcf_value n) n.autopilot_hw_two_or_newer := by
  cases hn : f.normalize with
  | none => simp [compute_safety_score, hn] at h
  | some n =>
      refine ⟨n, rfl, ?_⟩
      rw [compute_safety_score_eq hn] at h
      exact (Option.some.inj h).symm

lemma pcf_value_mono {n m : SafetyFactors}
    (hw : n.autopilot_hw_two_or_newer = m.autopilot_hw_two_or_newer)
    (h1 : n.hard_braking ≤ m.hard_braking)
    (h2 : n.aggressive_turning ≤ m.aggressive_turning)
    (h3 : n.unsafe_following ≤ m.unsafe_following)
    (h4 : n.excessive_speeding ≤ m.excessive_speeding)
    (h5 : n.late_night_driving ≤ m.late_night_driving)
    (h6 : n.unbuckled_driving ≤ m.unbuckled_driving)
    (h7 : n.forced_autopilot_disengagement ≤ m.forced_autopilot_disengagement) :
    pcf_value n ≤ pcf_value m := by
  have uf_le : (((if n.autopilot_hw_two_or_newer then n.unsafe_following
        else min LEGACY_UNSAFE_FOLLOWING (CAPS .unsafe_following)) : ℚ) : ℝ)
      ≤ (((if n.autopilot_hw_two_or_newer then m.unsafe_following
        else min LEGACY_UNSAFE_FOLLOWING (CAPS .unsafe_following)) : ℚ) : ℝ) := by
    split_ifs
    · exact_mod_cast h3
    · exact le_rfl
  simp only [pcf_value, MULTIPLIERS, BASE_PCF]
  rw [← hw]
  gcongr <;> norm_num

lemma normalize_preserves_hw {f n : SafetyFactors} (h : f.normalize = some n) :
    n.autopilot_hw_two_or_newer = f.autopilot_hw_two_or_newer := by
  rw [normalize_characterization] at h
  by_cases hneg : f.hasNegativeField
  · rw [if_pos hneg] at h; cases h
  · rw [if_neg hneg] at h
    obtain rfl := Option.some.inj h
    rfl

lemma compute_pcf_some {f : SafetyFactors} {p : ℝ} (h : compute_pcf f = some p) :
    ∃ n, f.normalize = some n ∧ p = pcf_value n := by
  cases hn : f.normalize with
  | none => simp [compute_pcf, hn] at h
  | some n =>
      refine ⟨n, rfl, ?_⟩
      rw [compute_pcf_eq hn] at h
      exact (Option.some.inj h).symm

lemma zip_mul_sum : ∀ (a b : List ℝ), a.length = b.length →
    ((a.zip b).map fun p => p.1 * p.2).sum =
      ∑ i ∈ Finset.range a.length, a.getD i 0 * b.getD i 0
  | [], [], _ => by simp
  | [], _ :: _, h => by cases h
  | _ :: _, [], h => by cases h
  | x :: xs, y :: ys, h => by
      have ih := zip_mul_sum xs ys (Nat.succ_injective h)
      simp [Finset.sum_range_succ', ih, add_comm]

/-! ### Breakdown loop invariants -/

lemma normalize_baseline (hw : Bool) :
    (baseline_factors hw).normalize = some (baseline_factors hw) := by
  norm_num [baseline_factors, SafetyFactors.normalize, normalize_percentage,
    CAPS, min_def]

lemma isNormalized_baseline (hw : Bool) : IsNormalized (baseline_factors hw) :=
  isNormalized_of_normalize (normalize_baseline hw)

lemma exponents_nonneg {n : SafetyFactors} (hn : IsNormalized n)
    (k : FactorKey) : 0 ≤ get_factor_exponent n k := by
  obtain ⟨h1, h2, h3, h4, h5, h6, h7⟩ := hn
  cases k with
  | hard_braking => simpa [get_factor_exponent, getattr_q] using h1
  | aggressive_turning => simpa [get_factor_exponent, getattr_q] using h2
  | unsafe_following =>
      simp only [get_factor_exponent, getattr_q]
      split_ifs <;> simp_all
  | excessive_speeding => simpa [get_factor_exponent, getattr_q] using h4
  | late_night_driving => simpa [get_factor_exponent, getattr_q] using h5
  | unbuckled_driving => simpa [get_factor_exponent, getattr_q] using h6
  | forced_autopilot_disengagement =>
      simp only [get_factor_exponent, if_pos]
      rcases h7 with h | h <;> rw [h] <;> norm_num

lemma exp_prod_nil (n : SafetyFactors) : exp_prod n [] = 1 := by
  simp [exp_prod]

lemma exp_prod_cons (n : SafetyFactors) (k : FactorKey) (l : String)
    (rest : List (FactorKey × String)) :
    exp_prod n ((k, l) :: rest) =
      MULTIPLIERS k ^ ((get_factor_exponent n k : ℚ) : ℝ) * exp_prod n rest := by
  simp [exp_prod]

lemma one_le_exp_prod {n : SafetyFactors} (hn : IsNormalized n) :
    ∀ keys : List (FactorKey × String), 1 ≤ exp_prod n keys
  | [] => by simp [exp_prod_nil]
  | (k, l) :: rest => by
      have h1 : 1 ≤ MULTIPLIERS k ^ ((get_factor_exponent n k : ℚ) : ℝ) :=
        one_le_rpow_exp k (by exact_mod_cast exponents_nonneg hn k)
      have h2 := one_le_exp_prod hn rest
      rw [exp_prod_cons]
      have := mul_le_mul h1 h2 zero_le_one (zero_le_one.trans h1)
      simpa using this

/-- Starting from the matching baseline PCF, applying every effective
breakdown exponent reproduces `pcf_value`. -/
lemma base_mul_exp_prod (n : SafetyFactors) :
    pcf_value (baseline_factors n.autopilot_hw_two_or_newer) *
      exp_prod n FACTOR_ORDER = pcf_value n := by
  cases hhw : n.autopilot_hw_two_or_newer <;>
    simp [pcf_value, exp_prod, FACTOR_ORDER, get_factor_exponent, getattr_q,
      baseline_factors, hhw, Real.rpow_zero] <;>
    ring_nf

/-- Loop invariant: when the incoming running score is the score of the
incoming running PCF, the loop's final PCF is the incoming PCF times
`exp_prod`, its final score tracks its final PCF, and the emitted penalties
telescope. -/
lemma breakdown_loop_spec (n : SafetyFactors) (hn : IsNormalized n) :
    ∀ (keys : List (FactorKey × String)) (pcf : ℝ) (segs : List Segment),
      0 ≤ pcf →
      (breakdown_loop n keys pcf
          (score_from_pcf pcf n.autopilot_hw_two_or_newer) segs).1 =
        pcf * exp_prod n keys ∧
      (breakdown_loop n keys pcf
          (score_from_pcf pcf n.autopilot_hw_two_or_newer) segs).2.1 =
        score_from_pcf (pcf * exp_prod n keys) n.autopilot_hw_two_or_newer ∧
      (((breakdown_loop n keys pcf
          (score_from_pcf pcf n.autopilot_hw_two_or_newer) segs).2.2).map
            Segment.penalty).sum =
        ((segs.map Segment.penalty).sum +
          (score_from_pcf pcf n.autopilot_hw_two_or_newer -
            score_from_pcf (pcf * exp_prod n keys)
              n.autopilot_hw_two_or_newer))
  | [], pcf, segs, hp => by
      simp [breakdown_loop, exp_prod_nil]
  | (key, label) :: rest, pcf, segs, hp => by
      have he := exponents_nonneg hn key
      simp only [breakdown_loop]
      by_cases hexp : get_factor_exponent n key ≤ 0
      · have he0 : get_factor_exponent n key = 0 := le_antisymm hexp he
        obtain ⟨i1, i2, i3⟩ := breakdown_loop_spec n hn rest pcf segs hp
        rw [if_pos hexp, exp_prod_cons, he0]
        simp only [Rat.cast_zero, Real.rpow_zero, one_mul]
        exact ⟨i1, i2, i3⟩
      · rw [if_neg hexp]
        have hM1 : 1 ≤ MULTIPLIERS key ^ ((get_factor_exponent n key : ℚ) : ℝ) :=
          one_le_rpow_exp key (by exact_mod_cast he)
        have hple : pcf ≤
            pcf * MULTIPLIERS key ^ ((get_factor_exponent n key : ℚ) : ℝ) :=
          le_mul_of_one_le_right hp hM1
        have hp' : 0 ≤
            pcf * MULTIPLIERS key ^ ((get_factor_exponent n key : ℚ) : ℝ) :=
          hp.trans hple
        have hd : 0 ≤ score_from_pcf pcf n.autopilot_hw_two_or_newer -
            score_from_pcf
              (pcf * MULTIPLIERS key ^ ((get_factor_exponent n key : ℚ) : ℝ))
              n.autopilot_hw_two_or_newer :=
          sub_nonneg.mpr (score_from_pcf_antitone _ hple)
        obtain ⟨i1, i2, i3⟩ :=
          breakdown_loop_spec n hn rest
            (pcf * MULTIPLIERS key ^ ((get_factor_exponent n key : ℚ) : ℝ))
            segs hp'
        obtain ⟨j1, j2, j3⟩ :=
          breakdown_loop_spec n hn rest
            (pcf * MULTIPLIERS key ^ ((get_factor_exponent n key : ℚ) : ℝ))
            (segs ++ [{ key := key, label := label
                        penalty := max 0
                          (score_from_pcf pcf n.autopilot_hw_two_or_newer -
                            score_from_pcf (pcf * MULTIPLIERS key ^
                                ((get_factor_exponent n key : ℚ) : ℝ))
                              n.autopilot_hw_two_or_newer)
                        value := ((get_factor_exponent n key : ℚ) : ℝ) }])
            hp'
        by_cases hpen : max 0
            (score_from_pcf pcf n.autopilot_hw_two_or_newer -
              score_from_pcf
                (pcf * MULTIPLIERS key ^ ((get_factor_exponent n key : ℚ) : ℝ))
                n.autopilot_hw_two_or_newer) ≤ 0
        · have hd0 : score_from_pcf pcf n.autopilot_hw_two_or_newer =
              score_from_pcf
                (pcf * MULTIPLIERS key ^ ((get_factor_exponent n key : ℚ) : ℝ))
                n.autopilot_hw_two_or_newer := by
            have := le_trans (le_max_right 0 _) hpen
            linarith
          rw [if_pos hpen, exp_prod_cons]
          refine ⟨by rw [i1]; ring, by rw [i2, mul_assoc], ?_⟩
          rw [i3, ← mul_assoc, hd0]
        · rw [if_neg hpen, exp_prod_cons]
          have hmax : max 0
              (score_from_pcf pcf n.autopilot_hw_two_or_newer -
                score_from_pcf
                  (pcf * MULTIPLIERS key ^ ((get_factor_exponent n key : ℚ) : ℝ))
                  n.autopilot_hw_two_or_newer) =
              score_from_pcf pcf n.autopilot_hw_two_or_newer -
                score_from_pcf
                  (pcf * MULTIPLIERS key ^ ((get_factor_exponent n key : ℚ) : ℝ))
                  n.autopilot_hw_two_or_newer := max_eq_right hd
          refine ⟨by rw [j1]; ring, by rw [j2, mul_assoc], ?_⟩
          rw [j3, ← mul_assoc]
          simp only [List.map_append, List.sum_append, List.map_cons,
            List.map_nil, List.sum_cons, List.sum_nil]
          rw [hmax]
          ring

/-! ### Numeric facts for the concrete scenario -/

lemma hard_braking_rpow_lo :
    (2.8 : ℝ) ≤ MULTIPLIERS .hard_braking ^ (5.2 : ℝ) := by
  have h5 : MULTIPLIERS .hard_braking ^ ((5 : ℕ) : ℝ) ≤
      MULTIPLIERS .hard_braking ^ (5.2 : ℝ) :=
    Real.rpow_le_rpow_of_exponent_le (one_le_MULTIPLIERS _) (by norm_num)
  rw [Real.rpow_natCast] at h5
  refine le_trans ?_ h5
  norm_num [MULTIPLIERS]

lemma hard_braking_rpow_hi :
    MULTIPLIERS .hard_braking ^ (5.2 : ℝ) ≤ 3.6 := by
  have h6 : MULTIPLIERS .hard_braking ^ (5.2 : ℝ) ≤
      MULTIPLIERS .hard_braking ^ ((6 : ℕ) : ℝ) :=
    Real.rpow_le_rpow_of_exponent_le (one_le_MULTIPLIERS _) (by norm_num)
  rw [Real.rpow_natCast] at h6
  refine h6.trans ?_
  norm_num [MULTIPLIERS]

/-- At the hard-braking cap the score strictly drops below the baseline
score. -/
lemma scenario_score_drop :
    score_from_pcf (BASE_PCF * MULTIPLIERS .hard_braking ^ (5.2 : ℝ)) true <
      score_from_pcf BASE_PCF true := by
  have eI : BASE_SAFETY_SCORE_INTERCEPT = (122.15240383 : ℝ) := rfl
  have eS : BASE_SAFETY_SCORE_SLOPE = (-38.72920381 : ℝ) := rfl
  have eB : BASE_PCF = (0.57198191 : ℝ) := rfl
  show max 0 (min 100 (BASE_SAFETY_SCORE_INTERCEPT + BASE_SAFETY_SCORE_SLOPE *
      (BASE_PCF * MULTIPLIERS .hard_braking ^ (5.2 : ℝ)))) <
    max 0 (min 100 (BASE_SAFETY_SCORE_INTERCEPT +
      BASE_SAFETY_SCORE_SLOPE * BASE_PCF))
  rw [eI, eS, eB]
  have c1 : (122.15240383 : ℝ) + (-38.72920381) *
      ((0.57198191) * MULTIPLIERS .hard_braking ^ (5.2 : ℝ)) ≤ 60.2 := by
    nlinarith [hard_braking_rpow_lo]
  have c3 : (99.9 : ℝ) ≤ 122.15240383 + (-38.72920381) * 0.57198191 := by
    norm_num
  calc max 0 (min 100 ((122.15240383 : ℝ) + (-38.72920381) *
        ((0.57198191) * MULTIPLIERS .hard_braking ^ (5.2 : ℝ))))
      ≤ 60.2 := max_le (by norm_num) ((min_le_right _ _).trans c1)
    _ < 99.9 := by norm_num
    _ ≤ min 100 ((122.15240383 : ℝ) + (-38.72920381) * 0.57198191) :=
        le_min (by norm_num) c3
    _ ≤ max 0 (min 100 ((122.15240383 : ℝ) + (-38.72920381) * 0.57198191)) :=
        le_max_right _ _

/-! ### Claims -/

/-- C1: for every factor set accepted by normalization, `compute_pcf` returns
exactly the spec's reference PCF formula (base constant, per-factor
multipliers raised to clamped percentages, legacy unsafe-following override,
forced-disengagement on/off factor). -/
theorem compute_pcf_matches_spec_formula (f n : SafetyFactors)
    (h : f.normalize = some n) :
    compute_pcf f = some (pcf_spec_formula f) := by
  rw [compute_pcf_eq h]
  rw [normalize_characterization] at h
  by_cases hneg : f.hasNegativeField
  · rw [if_pos hneg] at h; cases h
  · rw [if_neg hneg] at h
    obtain rfl := Option.some.inj h
    unfold pcf_value pcf_spec_formula
    cases hhw : f.autopilot_hw_two_or_newer <;> simp [hhw] <;> ring_nf

/-- C1 witness: a concrete accepted factor set. -/
theorem compute_pcf_matches_spec_formula_witness :
    (SafetyFactors.mk 1 2 3 4 5 1 6 true).normalize =
      some (SafetyFactors.mk 1 2 3 4 5 1 6 true) ∧
    compute_pcf (SafetyFactors.mk 1 2 3 4 5 1 6 true) =
      some (pcf_spec_formula (SafetyFactors.mk 1 2 3 4 5 1 6 true)) := by
  have h : (SafetyFactors.mk 1 2 3 4 5 1 6 true).normalize =
      some (SafetyFactors.mk 1 2 3 4 5 1 6 true) := by
    norm_num [SafetyFactors.normalize, normalize_percentage, CAPS, min_def]
  exact ⟨h, compute_pcf_matches_spec_formula _ _ h⟩

/-- C3: whenever `compute_safety_score` returns a value, that value lies in
`[0, 100]` and is the clamp of the affine transform
`intercept + slope * pcf`, with the intercept selected by the
hardware-generation flag. -/
theorem compute_safety_score_bounded (f : SafetyFactors) (s : ℝ)
    (h : compute_safety_score f = some s) :
    0 ≤ s ∧ s ≤ 100 ∧
      ∃ p, compute_pcf f = some p ∧
        s = max 0 (min 100 ((if f.autopilot_hw_two_or_newer then
              BASE_SAFETY_SCORE_INTERCEPT else LEGACY_INTERCEPT) +
            BASE_SAFETY_SCORE_SLOPE * p)) := by
  obtain ⟨n, hn, rfl⟩ := compute_safety_score_some h
  refine ⟨score_from_pcf_nonneg _ _, score_from_pcf_le_100 _ _,
    pcf_value n, compute_pcf_eq hn, ?_⟩
  simp only [score_from_pcf, normalize_preserves_hw hn]

/-- C3 witness: the all-zero factor set on current hardware. -/
theorem compute_safety_score_bounded_witness :
    compute_safety_score (baseline_factors true) =
      some (score_from_pcf (pcf_value (baseline_factors true)) true) ∧
    (0 ≤ score_from_pcf (pcf_value (baseline_factors true)) true ∧
     score_from_pcf (pcf_value (baseline_factors true)) true ≤ 100 ∧
     ∃ p, compute_pcf (baseline_factors true) = some p ∧
       score_from_pcf (pcf_value (baseline_factors true)) true =
         max 0 (min 100 (((if (baseline_factors true).autopilot_hw_two_or_newer
             then BASE_SAFETY_SCORE_INTERCEPT else LEGACY_INTERCEPT)) +
           BASE_SAFETY_SCORE_SLOPE * p))) := by
  have hb : (baseline_factors true).normalize = some (baseline_factors true) := by
    norm_num [baseline_factors, SafetyFactors.normalize, normalize_percentage,
      CAPS, min_def]
  have h := compute_safety_score_eq hb
  exact ⟨h, compute_safety_score_bounded _ _ h⟩

/-- C4: raising any single one of the six percentage factors (holding every
other field fixed) never increases the safety score. -/
theorem compute_safety_score_monotone (f : SafetyFactors) (k : PercentFactor)
    (v : ℚ) (s s' : ℝ) (hv : get_percent f k ≤ v)
    (hs : compute_safety_score f = some s)
    (hs' : compute_safety_score (set_percent f k v) = some s') :
    s' ≤ s := by
  obtain ⟨n, hn, rfl⟩ := compute_safety_score_some hs
  obtain ⟨m, hm, rfl⟩ := compute_safety_score_some hs'
  rw [normalize_characterization] at hn hm
  by_cases hneg : f.hasNegativeField
  · rw [if_pos hneg] at hn; cases hn
  · rw [if_neg hneg] at hn
    obtain rfl := Option.some.inj hn
    unfold SafetyFactors.hasNegativeField at hneg
    push_neg at hneg
    obtain ⟨g1, g2, g3, g4, g5, g6⟩ := hneg
    cases k with
    | hard_braking =>
        rw [if_neg (show ¬ (set_percent f .hard_braking v).hasNegativeField from by
          unfold SafetyFactors.hasNegativeField set_percent
          push_neg
          exact ⟨g1.trans hv, g2, g3, g4, g5, g6⟩)] at hm
        obtain rfl := Option.some.inj hm
        exact score_from_pcf_antitone _ (pcf_value_mono rfl
          (min_le_min hv le_rfl) le_rfl le_rfl le_rfl le_rfl le_rfl le_rfl)
    | aggressive_turning =>
        rw [if_neg (show ¬ (set_percent f .aggressive_turning v).hasNegativeField from by
          unfold SafetyFactors.hasNegativeField set_percent
          push_neg
          exact ⟨g1, g2.trans hv, g3, g4, g5, g6⟩)] at hm
        obtain rfl := Option.some.inj hm
        exact score_from_pcf_antitone _ (pcf_value_mono rfl
          le_rfl (min_le_min hv le_rfl) le_rfl le_rfl le_rfl le_rfl le_rfl)
    | unsafe_following =>
        rw [if_neg (show ¬ (set_percent f .unsafe_following v).hasNegativeField from by
          unfold SafetyFactors.hasNegativeField set_percent
          push_neg
          exact ⟨g1, g2, g3.trans hv, g4, g5, g6⟩)] at hm
        obtain rfl := Option.some.inj hm
        exact score_from_pcf_antitone _ (pcf_value_mono rfl
          le_rfl le_rfl (min_le_min hv le_rfl) le_rfl le_rfl le_rfl le_rfl)
    | excessive_speeding =>
        rw [if_neg (show ¬ (set_percent f .excessive_speeding v).hasNegativeField from by
          unfold SafetyFactors.hasNegativeField set_percent
          push_neg
          exact ⟨g1, g2, g3, g4.trans hv, g5, g6⟩)] at hm
        obtain rfl := Option.some.inj hm
        exact score_from_pcf_antitone _ (pcf_value_mono rfl
          le_rfl le_rfl le_rfl (min_le_min hv le_rfl) le_rfl le_rfl le_rfl)
    | late_night_driving =>
        rw [if_neg (show ¬ (set_percent f .late_night_driving v).hasNegativeField from by
          unfold SafetyFactors.hasNegativeField set_percent
          push_neg
          exact ⟨g1, g2, g3, g4, g5.trans hv, g6⟩)] at hm
        obtain rfl := Option.some.inj hm
        exact score_from_pcf_antitone _ (pcf_value_mono rfl
          le_rfl le_rfl le_rfl le_rfl (min_le_min hv le_rfl) le_rfl le_rfl)
    | unbuckled_driving =>
        rw [if_neg (show ¬ (set_percent f .unbuckled_driving v).hasNegativeField from by
          unfold SafetyFactors.hasNegativeField set_percent
          push_neg
          exact ⟨g1, g2, g3, g4, g5, g6.trans hv⟩)] at hm
        obtain rfl := Option.some.inj hm
        exact score_from_pcf_antitone _ (pcf_value_mono rfl
          le_rfl le_rfl le_rfl le_rfl le_rfl (min_le_min hv le_rfl) le_rfl)

/-- C4 witness: hard braking raised from 0 to 0 on the all-zero factor set. -/
theorem compute_safety_score_monotone_witness :
    get_percent (baseline_factors true) .hard_braking ≤ 0 ∧
    compute_safety_score (baseline_factors true) =
      some (score_from_pcf (pcf_value (baseline_factors true)) true) ∧
    compute_safety_score (set_percent (baseline_factors true) .hard_braking 0) =
      some (score_from_pcf (pcf_value (baseline_factors true)) true) ∧
    score_from_pcf (pcf_value (baseline_factors true)) true ≤
      score_from_pcf (pcf_value (baseline_factors true)) true := by
  have h1 : (baseline_factors true).normalize = some (baseline_factors true) := by
    norm_num [baseline_factors, SafetyFactors.normalize, normalize_percentage,
      CAPS, min_def]
  have h2 : (set_percent (baseline_factors true) .hard_braking 0).normalize =
      some (baseline_factors true) := by
    norm_num [baseline_factors, set_percent, SafetyFactors.normalize,
      normalize_percentage, CAPS, min_def]
  have e1 := compute_safety_score_eq h1
  have e2 := compute_safety_score_eq h2
  exact ⟨le_rfl, e1, e2,
    compute_safety_score_monotone (baseline_factors true) .hard_braking 0 _ _
      (le_refl 0) e1 e2⟩

/-- C2: for every factor set accepted by normalization, the penalties of the
segments emitted by `score_breakdown` sum to the returned total penalty to
within 1e-6; whenever at least one segment is emitted, the sum equals the
total penalty exactly. -/
theorem score_breakdown_reconciliation (f n : SafetyFactors)
    (r : BreakdownResult) (hn : f.normalize = some n)
    (hr : score_breakdown f = some r) :
    |r.total_penalty - (r.segments.map Segment.penalty).sum| ≤ 1e-6 ∧
    (r.segments ≠ [] →
      (r.segments.map Segment.penalty).sum = r.total_penalty) := by
  have hnorm := isNormalized_of_normalize hn
  have hnn := normalize_of_isNormalized_self hn
  have hpb := compute_pcf_eq (normalize_baseline n.autopilot_hw_two_or_newer)
  have hpn := compute_pcf_eq hnn
  simp only [score_breakdown, hn, hpb, hpn, Option.bind_eq_bind,
    Option.some_bind, Option.pure_def] at hr
  obtain rfl := Option.some.inj hr
  have hp0 : 0 ≤ pcf_value (baseline_factors n.autopilot_hw_two_or_newer) :=
    (pcf_value_pos (isNormalized_baseline _)).le
  obtain ⟨l1, l2, l3⟩ :=
    breakdown_loop_spec n hnorm FACTOR_ORDER
      (pcf_value (baseline_factors n.autopilot_hw_two_or_newer)) [] hp0
  rw [base_mul_exp_prod] at l1 l2 l3
  simp only [List.map_nil, List.sum_nil, zero_add] at l3
  have hCB : score_from_pcf (pcf_value n) n.autopilot_hw_two_or_newer ≤
      score_from_pcf (pcf_value (baseline_factors n.autopilot_hw_two_or_newer))
        n.autopilot_hw_two_or_newer := by
    apply score_from_pcf_antitone
    rw [← base_mul_exp_prod n]
    exact le_mul_of_one_le_right hp0 (one_le_exp_prod hnorm _)
  have htot : max 0
      (score_from_pcf (pcf_value (baseline_factors n.autopilot_hw_two_or_newer))
          n.autopilot_hw_two_or_newer -
        score_from_pcf (pcf_value n) n.autopilot_hw_two_or_newer) =
      score_from_pcf (pcf_value (baseline_factors n.autopilot_hw_two_or_newer))
          n.autopilot_hw_two_or_newer -
        score_from_pcf (pcf_value n) n.autopilot_hw_two_or_newer :=
    max_eq_right (by linarith)
  by_cases hemp : ((breakdown_loop n FACTOR_ORDER
      (pcf_value (baseline_factors n.autopilot_hw_two_or_newer))
      (score_from_pcf (pcf_value (baseline_factors n.autopilot_hw_two_or_newer))
        n.autopilot_hw_two_or_newer) []).2.2).isEmpty
  · have hseq : (breakdown_loop n FACTOR_ORDER
        (pcf_value (baseline_factors n.autopilot_hw_two_or_newer))
        (score_from_pcf (pcf_value (baseline_factors n.autopilot_hw_two_or_newer))
          n.autopilot_hw_two_or_newer) []).2.2 = [] :=
      List.isEmpty_iff.mp hemp
    rw [hseq] at l3
    simp only [List.map_nil, List.sum_nil] at l3
    simp only [hseq, List.isEmpty_nil, if_true, htot, ← l3]
    norm_num
  · have hres : ¬ (1e-6 : ℝ) <
        |max 0 (score_from_pcf
              (pcf_value (baseline_factors n.autopilot_hw_two_or_newer))
              n.autopilot_hw_two_or_newer -
            score_from_pcf (pcf_value n) n.autopilot_hw_two_or_newer) -
          (((breakdown_loop n FACTOR_ORDER
              (pcf_value (baseline_factors n.autopilot_hw_two_or_newer))
              (score_from_pcf
                (pcf_value (baseline_factors n.autopilot_hw_two_or_newer))
                n.autopilot_hw_two_or_newer) []).2.2).map
                  Segment.penalty).sum| := by
      rw [htot, l3]
      norm_num
    simp only [hemp, Bool.false_eq_true, if_false, if_neg hres]
    rw [htot, l3]
    norm_num

/-- C2 witness: the all-zero factor set (no segments, zero total penalty). -/
theorem score_breakdown_reconciliation_witness :
    (baseline_factors true).normalize = some (baseline_factors true) ∧
    score_breakdown (baseline_factors true) =
      some { base_score :=
               score_from_pcf (pcf_value (baseline_factors true)) true
             current_score :=
               score_from_pcf (pcf_value (baseline_factors true)) true
             total_penalty := 0
             segments := [] } ∧
    (|(0 : ℝ) - (([] : List Segment).map Segment.penalty).sum| ≤ 1e-6 ∧
     (([] : List Segment) ≠ [] →
       (([] : List Segment).map Segment.penalty).sum = (0 : ℝ))) := by
  have h1 := normalize_baseline true
  have hb : score_breakdown (baseline_factors true) =
      some { base_score :=
               score_from_pcf (pcf_value (baseline_factors true)) true
             current_score :=
               score_from_pcf (pcf_value (baseline_factors true)) true
             total_penalty := 0
             segments := [] } := by
    have hproj : (baseline_factors true).autopilot_hw_two_or_newer = true := rfl
    have hloop : breakdown_loop (baseline_factors true) FACTOR_ORDER
        (pcf_value (baseline_factors true))
        (score_from_pcf (pcf_value (baseline_factors true)) true) [] =
        (pcf_value (baseline_factors true),
         score_from_pcf (pcf_value (baseline_factors true)) true, []) := by
      simp [breakdown_loop, FACTOR_ORDER, get_factor_exponent, getattr_q,
        baseline_factors]
    simp only [score_breakdown, h1, hproj, compute_pcf_eq h1,
      Option.bind_eq_bind, Option.some_bind, Option.pure_def, hloop,
      List.isEmpty_nil, if_true, sub_self, max_self]
  exact ⟨h1, hb,
    score_breakdown_reconciliation (baseline_factors true)
      (baseline_factors true) _ h1 hb⟩

/-- C5 counterexample: the claim quantifies over all pairs differing only in
`unsafe_following`; with a negative `unsafe_following` on one side,
normalization raises there and the two `compute_pcf` results differ, so the
input is not entirely ignored even on legacy hardware. -/
theorem legacy_unsafe_following_not_fully_ignored :
    compute_pcf (SafetyFactors.mk 0 0 0 0 0 0 0 false) ≠
      compute_pcf (SafetyFactors.mk 0 0 (-1) 0 0 0 0 false) := by
  have h1 : (SafetyFactors.mk 0 0 0 0 0 0 0 false).normalize =
      some (SafetyFactors.mk 0 0 0 0 0 0 0 false) := by
    norm_num [SafetyFactors.normalize, normalize_percentage, CAPS, min_def]
  have h2 : (SafetyFactors.mk 0 0 (-1) 0 0 0 0 false).normalize = none := by
    norm_num [SafetyFactors.normalize, normalize_percentage, CAPS]
  rw [compute_pcf_eq h1]
  simp [compute_pcf, h2]

/-- C5 amended: for two factor sets identical except for `unsafe_following`,
both on legacy hardware and both with a non-negative `unsafe_following`
value, `compute_pcf` and `compute_safety_score` agree on the two inputs. -/
theorem legacy_unsafe_following_noninterference (f : SafetyFactors) (u : ℚ)
    (hhw : f.autopilot_hw_two_or_newer = false)
    (hf : 0 ≤ f.unsafe_following) (hu : 0 ≤ u) :
    compute_pcf { f with unsafe_following := u } = compute_pcf f ∧
    compute_safety_score { f with unsafe_following := u } =
      compute_safety_score f := by
  by_cases hneg : f.hasNegativeField
  · have hg : ({ f with unsafe_following := u } : SafetyFactors).hasNegativeField := by
      unfold SafetyFactors.hasNegativeField at hneg ⊢
      simp only at hneg ⊢
      rcases hneg with h | h | h | h | h | h
      · exact Or.inl h
      · exact Or.inr (Or.inl h)
      · exact absurd h (not_lt.mpr hf)
      · exact Or.inr (Or.inr (Or.inr (Or.inl h)))
      · exact Or.inr (Or.inr (Or.inr (Or.inr (Or.inl h))))
      · exact Or.inr (Or.inr (Or.inr (Or.inr (Or.inr h))))
    have e1 : ({ f with unsafe_following := u } : SafetyFactors).normalize = none := by
      rw [normalize_characterization, if_pos hg]
    have e2 : f.normalize = none := by
      rw [normalize_characterization, if_pos hneg]
    constructor <;> simp [compute_pcf, compute_safety_score, e1, e2]
  · have hg : ¬ ({ f with unsafe_following := u } : SafetyFactors).hasNegativeField := by
      unfold SafetyFactors.hasNegativeField at hneg ⊢
      push_neg at hneg ⊢
      obtain ⟨g1, g2, _, g4, g5, g6⟩ := hneg
      exact ⟨g1, g2, hu, g4, g5, g6⟩
    have e1 := normalize_characterization ({ f with unsafe_following := u } : SafetyFactors)
    rw [if_neg hg] at e1
    have e2 := normalize_characterization f
    rw [if_neg hneg] at e2
    rw [compute_pcf_eq e1, compute_pcf_eq e2,
      compute_safety_score_eq e1, compute_safety_score_eq e2]
    have hpcf : pcf_value
        { hard_braking := min ({ f with unsafe_following := u } : SafetyFactors).hard_braking (CAPS .hard_braking)
          aggressive_turning := min ({ f with unsafe_following := u } : SafetyFactors).aggressive_turning (CAPS .aggressive_turning)
          unsafe_following := min ({ f with unsafe_following := u } : SafetyFactors).unsafe_following (CAPS .unsafe_following)
          excessive_speeding := min ({ f with unsafe_following := u } : SafetyFactors).excessive_speeding (CAPS .excessive_speeding)
          late_night_driving := min ({ f with unsafe_following := u } : SafetyFactors).late_night_driving (CAPS .late_night_driving)
          forced_autopilot_disengagement :=
            if ({ f with unsafe_following := u } : SafetyFactors).forced_autopilot_disengagement ≠ 0 then 1 else 0
          unbuckled_driving := min ({ f with unsafe_following := u } : SafetyFactors).unbuckled_driving (CAPS .unbuckled_driving)
          autopilot_hw_two_or_newer := ({ f with unsafe_following := u } : SafetyFactors).autopilot_hw_two_or_newer } =
      pcf_value
        { hard_braking := min f.hard_braking (CAPS .hard_braking)
          aggressive_turning := min f.aggressive_turning (CAPS .aggressive_turning)
          unsafe_following := min f.unsafe_following (CAPS .unsafe_following)
          excessive_speeding := min f.excessive_speeding (CAPS .excessive_speeding)
          late_night_driving := min f.late_night_driving (CAPS .late_night_driving)
          forced_autopilot_disengagement :=
            if f.forced_autopilot_disengagement ≠ 0 then 1 else 0
          unbuckled_driving := min f.unbuckled_driving (CAPS .unbuckled_driving)
          autopilot_hw_two_or_newer := f.autopilot_hw_two_or_newer } := by
      simp [pcf_value, hhw]
    rw [hpcf]
    exact ⟨rfl, rfl⟩

/-- C5 amended witness: a concrete legacy pair differing only in a
non-negative `unsafe_following`. -/
theorem legacy_unsafe_following_noninterference_witness :
    (SafetyFactors.mk 1 1 0 1 1 1 1 false).autopilot_hw_two_or_newer = false ∧
    (0 : ℚ) ≤ (SafetyFactors.mk 1 1 0 1 1 1 1 false).unsafe_following ∧
    (0 : ℚ) ≤ 2 ∧
    (compute_pcf { SafetyFactors.mk 1 1 0 1 1 1 1 false with unsafe_following := 2 } =
        compute_pcf (SafetyFactors.mk 1 1 0 1 1 1 1 false) ∧
     compute_safety_score
        { SafetyFactors.mk 1 1 0 1 1 1 1 false with unsafe_following := 2 } =
        compute_safety_score (SafetyFactors.mk 1 1 0 1 1 1 1 false)) :=
  ⟨rfl, by norm_num, by norm_num,
    legacy_unsafe_following_noninterference _ 2 rfl (by norm_num) (by norm_num)⟩

/-- C6: the concrete scenario — hard braking at its cap `5.2`, everything
else zero, current hardware: the PCF is `BASE_PCF * MULT ** 5.2`, the score
is the clamped affine transform of that PCF, and the breakdown emits exactly
one segment, keyed `hard_braking`, whose penalty is exactly
`base_score - current_score`. -/
theorem concrete_scenario_hard_braking_cap :
    compute_pcf scenario_hard_braking_cap =
      some (BASE_PCF * MULTIPLIERS .hard_braking ^ (5.2 : ℝ)) ∧
    compute_safety_score scenario_hard_braking_cap =
      some (max 0 (min 100 (BASE_SAFETY_SCORE_INTERCEPT +
        BASE_SAFETY_SCORE_SLOPE *
          (BASE_PCF * MULTIPLIERS .hard_braking ^ (5.2 : ℝ))))) ∧
    score_breakdown scenario_hard_braking_cap =
      some { base_score := score_from_pcf BASE_PCF true
             current_score :=
               score_from_pcf
                 (BASE_PCF * MULTIPLIERS .hard_braking ^ (5.2 : ℝ)) true
             total_penalty :=
               score_from_pcf BASE_PCF true -
                 score_from_pcf
                   (BASE_PCF * MULTIPLIERS .hard_braking ^ (5.2 : ℝ)) true
             segments :=
               [{ key := .hard_braking
                  label := "Hard Braking"
                  penalty :=
                    score_from_pcf BASE_PCF true -
                      score_from_pcf
                        (BASE_PCF * MULTIPLIERS .hard_braking ^ (5.2 : ℝ)) true
                  value := 5.2 }] } := by
  have hn : scenario_hard_braking_cap.normalize = some scenario_hard_braking_cap := by
    norm_num [scenario_hard_braking_cap, SafetyFactors.normalize,
      normalize_percentage, CAPS, min_def]
  have hcast : ((5.2 : ℚ) : ℝ) = (5.2 : ℝ) := by norm_num
  have hpv : pcf_value scenario_hard_braking_cap =
      BASE_PCF * MULTIPLIERS .hard_braking ^ (5.2 : ℝ) := by
    simp [pcf_value, scenario_hard_braking_cap, hcast]
  have hb0 : pcf_value (baseline_factors true) = BASE_PCF := by
    simp [pcf_value, baseline_factors]
  have hdrop := scenario_score_drop
  have hsub : 0 ≤ score_from_pcf BASE_PCF true -
      score_from_pcf (BASE_PCF * MULTIPLIERS .hard_braking ^ (5.2 : ℝ)) true :=
    sub_nonneg.mpr hdrop.le
  have hmax : max 0 (score_from_pcf BASE_PCF true -
      score_from_pcf (BASE_PCF * MULTIPLIERS .hard_braking ^ (5.2 : ℝ)) true) =
      score_from_pcf BASE_PCF true -
        score_from_pcf (BASE_PCF * MULTIPLIERS .hard_braking ^ (5.2 : ℝ)) true :=
    max_eq_right hsub
  have hpen' : ¬ (max 0 (score_from_pcf BASE_PCF true -
      score_from_pcf (BASE_PCF * MULTIPLIERS .hard_braking ^ (5.2 : ℝ)) true) ≤ 0) := by
    rw [hmax]
    exact not_le.mpr (sub_pos.mpr hdrop)
  have hloop : breakdown_loop scenario_hard_braking_cap FACTOR_ORDER BASE_PCF
      (score_from_pcf BASE_PCF true) [] =
      (BASE_PCF * MULTIPLIERS .hard_braking ^ (5.2 : ℝ),
       score_from_pcf (BASE_PCF * MULTIPLIERS .hard_braking ^ (5.2 : ℝ)) true,
       [{ key := .hard_braking
          label := "Hard Braking"
          penalty := score_from_pcf BASE_PCF true -
            score_from_pcf (BASE_PCF * MULTIPLIERS .hard_braking ^ (5.2 : ℝ)) true
          value := 5.2 }]) := by
    simp [breakdown_loop, FACTOR_ORDER, get_factor_exponent, getattr_q,
      scenario_hard_braking_cap, hcast, hpen', hmax, hdrop,
      show ¬ ((5.2 : ℚ) ≤ 0) by norm_num]
  have hproj : scenario_hard_braking_cap.autopilot_hw_two_or_newer = true := rfl
  have h1e : ¬ ((1e-6 : ℝ) < |(0 : ℝ)|) := by norm_num
  refine ⟨?_, ?_, ?_⟩
  · rw [compute_pcf_eq hn, hpv]
  · rw [compute_safety_score_eq hn, hpv]
    rfl
  · simp only [score_breakdown, hn, hproj, Option.bind_eq_bind, Option.some_bind,
      Option.pure_def, compute_pcf_eq (normalize_baseline true),
      compute_pcf_eq hn, hb0, hpv, hloop, hmax, List.isEmpty_cons,
      Bool.false_eq_true, if_false, List.map_cons, List.map_nil, List.sum_cons,
      List.sum_nil, add_zero, sub_self, abs_zero, h1e,
      show ¬ ((1e-6 : ℝ) < 0) by norm_num]

/-- C7: `normalize` raises (returns `none`) exactly when one of the six raw
percentage fields is negative; otherwise it succeeds, silently clamping each
percentage to its cap and coercing the disengagement flag by truthiness. -/
theorem normalize_validation (f : SafetyFactors) :
    f.normalize =
      if f.hard_braking < 0 ∨ f.aggressive_turning < 0 ∨ f.unsafe_following < 0 ∨
         f.excessive_speeding < 0 ∨ f.late_night_driving < 0 ∨ f.unbuckled_driving < 0
      then none
      else some
        { hard_braking := min f.hard_braking 5.2
          aggressive_turning := min f.aggressive_turning 13.2
          unsafe_following := min f.unsafe_following 63.2
          excessive_speeding := min f.excessive_speeding 10.0
          late_night_driving := min f.late_night_driving 14.2
          forced_autopilot_disengagement :=
            if f.forced_autopilot_disengagement ≠ 0 then 1 else 0
          unbuckled_driving := min f.unbuckled_driving 31.7
          autopilot_hw_two_or_newer := f.autopilot_hw_two_or_newer } := by
  rw [normalize_characterization]
  exact if_congr Iff.rfl rfl (by norm_num [CAPS])

/-- C8: `weighted_average` raises (returns `none`) exactly on a length
mismatch or a zero weight sum, and otherwise returns the weight-normalized
average of the scores. -/
theorem weighted_average_characterization (scores weights : List ℝ) :
    weighted_average scores weights =
      if scores.length ≠ weights.length ∨ weights.sum = 0 then none
      else some ((∑ i ∈ Finset.range scores.length,
        scores.getD i 0 * weights.getD i 0) / weights.sum) := by
  unfold weighted_average
  by_cases hlen : scores.length = weights.length
  · by_cases hsum : weights.sum = 0
    · simp [hlen, hsum]
    · simp [hlen, hsum, zip_mul_sum _ _ hlen]
  · simp [hlen]

/-- C9: `normalize` is idempotent — if `normalize f` succeeds with `n`,
then `normalize n` succeeds and returns `n` itself, including the
already-coerced 0/1 disengagement flag. -/
theorem normalize_idempotent (f n : SafetyFactors) (h : f.normalize = some n) :
    n.normalize = some n :=
  normalize_of_isNormalized_self h

/-- C9 witness: a factor set with every percentage above its cap and a
truthy disengagement flag. -/
theorem normalize_idempotent_witness :
    (SafetyFactors.mk 7 14 64 11 15 5 32 false).normalize =
      some (SafetyFactors.mk 5.2 13.2 63.2 10 14.2 1 31.7 false) ∧
    (SafetyFactors.mk 5.2 13.2 63.2 10 14.2 1 31.7 false).normalize =
      some (SafetyFactors.mk 5.2 13.2 63.2 10 14.2 1 31.7 false) := by
  have h : (SafetyFactors.mk 7 14 64 11 15 5 32 false).normalize =
      some (SafetyFactors.mk 5.2 13.2 63.2 10 14.2 1 31.7 false) := by
    norm_num [SafetyFactors.normalize, normalize_percentage, CAPS, min_def]
  exact ⟨h, normalize_idempotent _ _ h⟩

/-- C10: whenever `compute_pcf` returns a value, that value is at least the
base PCF constant `0.57198191`, hence strictly positive. -/
theorem compute_pcf_lower_bound (f : SafetyFactors) (p : ℝ)
    (h : compute_pcf f = some p) :
    (0.57198191 : ℝ) ≤ p ∧ BASE_PCF ≤ p ∧ 0 < p := by
  obtain ⟨n, hn, rfl⟩ := compute_pcf_some h
  have hnorm := isNormalized_of_normalize hn
  have hle := BASE_PCF_le_pcf_value hnorm
  exact ⟨le_trans (by norm_num [BASE_PCF]) hle, hle, pcf_value_pos hnorm⟩

/-- C10 witness: the all-zero factor set on current hardware. -/
theorem compute_pcf_lower_bound_witness :
    compute_pcf (baseline_factors true) = some (pcf_value (baseline_factors true)) ∧
    ((0.57198191 : ℝ) ≤ pcf_value (baseline_factors true) ∧
     BASE_PCF ≤ pcf_value (baseline_factors true) ∧
     0 < pcf_value (baseline_factors true)) := by
  have hb : (baseline_factors true).normalize = some (baseline_factors true) := by
    norm_num [baseline_factors, SafetyFactors.normalize, normalize_percentage,
      CAPS, min_def]
  have h := compute_pcf_eq hb
  exact ⟨h, compute_pcf_lower_bound _ _ h⟩

end SafetyScore
